import Mathlib

/-!
Verification of the Moodify emotion-to-music pipeline (src/moodify.py).

Shallow embedding: the pure sequencing logic of the pipeline is translated
into Lean definitions. External collaborators (the face locator, the Keras
emotion model, and the Spotify search client) are modelled as function
parameters; operations that can raise a Python exception are modelled with
`Except String`. Classifier probabilities are modelled as rationals.
-/

namespace Moodify

/-- The fixed label ordering, line 21 of moodify.py: the Python list holding
Angry, Disgust, Fear, Happy, Sad, Surprise, Neutral in that order. -/
def emotion_labels : List String :=
  ["Angry", "Disgust", "Fear", "Happy", "Sad", "Surprise", "Neutral"]

/-- The dict literal inside `get_genre`, lines 39-47 of moodify.py. -/
def genre_mapping : List (String × String) :=
  [("Happy", "pop"), ("Sad", "acoustic"), ("Angry", "rock"), ("Surprise", "dance"),
   ("Neutral", "chill"), ("Fear", "ambient"), ("Disgust", "metal")]

/-- `get_genre`, lines 38-48 of moodify.py: the dict lookup with default pop,
`mapping.get(emotion, "pop")`, is an association-list lookup with a default. -/
def get_genre (emotion : String) : String :=
  (List.lookup emotion genre_mapping).getD "pop"

/-- A track record as built in `get_tracks_by_genre`, lines 58-62 of moodify.py. -/
structure Track where
  name : String
  artist : String
  url : String
deriving DecidableEq, Repr

/-- One result item of the external search response, as read by lines 59-61 of
moodify.py: the name key (missing key raises KeyError), the first entry of the
artists list and its name key (an empty artist list raises IndexError; a
missing name raises KeyError), and the spotify key of external_urls (missing
key raises KeyError). -/
structure Item where
  name : Option String
  artists : List (Option String)
  spotifyUrl : Option String
deriving DecidableEq, Repr

/-- The part of the search response the code reads: the items list under the
tracks key of the results dict, line 57 of moodify.py. -/
structure SearchResponse where
  items : List Item
deriving DecidableEq, Repr

/-- Extraction of one track from one result item, lines 58-62 of moodify.py.
Any missing field or an empty artist list raises, modelled as `Except.error`. -/
def extractTrack (item : Item) : Except String Track :=
  match item.name with
  | none => .error "KeyError: name"
  | some n =>
    match item.artists with
    | [] => .error "IndexError: artists"
    | a0 :: _ =>
      match a0 with
      | none => .error "KeyError: artist name"
      | some a =>
        match item.spotifyUrl with
        | none => .error "KeyError: external_urls spotify"
        | some u => .ok { name := n, artist := a, url := u }

/-- The accumulation loop of lines 57-62 of moodify.py: tracks are appended one
per item; the first exception aborts the whole loop (the `try` block wraps it). -/
def extractTracks : List Item → Except String (List Track)
  | [] => .ok []
  | item :: rest =>
    match extractTrack item with
    | .error e => .error e
    | .ok t =>
      match extractTracks rest with
      | .error e => .error e
      | .ok ts => .ok (t :: ts)

/-- `get_tracks_by_genre`, lines 53-66 of moodify.py. The external client `sp`
is a parameter `search` taking the query string and the limit; a raised
exception is an `Except.error` outcome. The `try` block covers both the
`sp.search` call and the extraction loop, and the `except` arm returns `[]`
(the `st.error` logging call has no effect on the returned value). -/
def get_tracks_by_genre (genre : String)
    (search : String → Nat → Except String SearchResponse) : List Track :=
  match search ("genre:" ++ genre) 5 with
  | .error _ => []
  | .ok results =>
    match extractTracks results.items with
    | .error _ => []
    | .ok tracks => tracks

/-- Accumulator loop of `np.argmax` (line 84 of moodify.py): scan left to
right, keeping the index of the best value seen so far; a later value replaces
the current best only when it is strictly greater, so the first occurrence of
the maximum wins. `i` is the index of the head of `l`; `bi`, `bv` are the index
and value of the best element seen so far. -/
def argmaxAux : (l : List ℚ) → (i bi : Nat) → (bv : ℚ) → Nat
  | [], _, bi, _ => bi
  | x :: xs, i, bi, bv =>
    if bv < x then argmaxAux xs (i + 1) i x else argmaxAux xs (i + 1) bi bv

/-- `np.argmax` on a nonempty vector: index of the first maximal entry.
NumPy raises on an empty vector; callers guard that case separately. -/
def argmax : List ℚ → Nat
  | [] => 0
  | x :: xs => argmaxAux xs 1 0 x

/-- The label-selection step `emotion_labels[np.argmax(prediction)]`, line 84
of moodify.py. An empty prediction vector makes `np.argmax` raise; an argmax
index beyond the seven labels makes the list indexing raise. -/
def selectLabel (prediction : List ℚ) : Except String String :=
  match prediction with
  | [] => .error "ValueError: argmax of an empty sequence"
  | _ :: _ =>
    match emotion_labels.get? (argmax prediction) with
    | none => .error "IndexError: list index out of range"
    | some e => .ok e

/-- `detect_emotion_from_image`, lines 71-87 of moodify.py, instrumented with
the number of calls into the Emotion Classifier. The face locator output is
the parameter `faces` (the cv2 cascade and grayscale conversion being the
locator collaborator); `predict` is the Emotion Classifier applied to the
normalized crop of a face region. With zero faces the function returns
"Neutral" without calling `predict`; otherwise the loop body runs once on the
first face and returns from inside the loop. -/
def detectRun {Face : Type} (faces : List Face) (predict : Face → List ℚ) :
    Except String String × Nat :=
  match faces with
  | [] => (.ok "Neutral", 0)
  | f :: _ => (selectLabel (predict f), 1)

/-- `detect_emotion_from_image`: the returned emotion (or raised exception). -/
def detect_emotion_from_image {Face : Type} (faces : List Face)
    (predict : Face → List ℚ) : Except String String :=
  (detectRun faces predict).1

/-- The RecommendationResult assembled by `main`, lines 138-141 of moodify.py. -/
structure RecommendationResult where
  emotion : String
  genre : String
  tracks : List Track
deriving DecidableEq, Repr

/-- The pipeline run of `main`, lines 138-141 of moodify.py: detect the
emotion, map it to a genre, fetch tracks. An exception raised by the detection
step propagates. -/
def evaluate {Face : Type} (faces : List Face) (predict : Face → List ℚ)
    (search : String → Nat → Except String SearchResponse) :
    Except String RecommendationResult :=
  match detect_emotion_from_image faces predict with
  | .error e => .error e
  | .ok emotion =>
    let genre := get_genre emotion
    let tracks := get_tracks_by_genre genre search
    .ok ⟨emotion, genre, tracks⟩

end Moodify

namespace Moodify

/-- C2: the Genre Mapper is a pure total function of its one input: it sends
Happy to pop, Sad to acoustic, Angry to rock, Surprise to dance, Neutral to
chill, Fear to ambient and Disgust to metal, and every string outside the
seven-label set to pop. -/
theorem get_genre_spec :
    get_genre "Happy" = "pop" ∧ get_genre "Sad" = "acoustic" ∧
    get_genre "Angry" = "rock" ∧ get_genre "Surprise" = "dance" ∧
    get_genre "Neutral" = "chill" ∧ get_genre "Fear" = "ambient" ∧
    get_genre "Disgust" = "metal" ∧
    ∀ s : String, s ∉ emotion_labels → get_genre s = "pop" := by
  refine ⟨rfl, rfl, rfl, rfl, rfl, rfl, rfl, ?_⟩
  intro s hs
  simp only [emotion_labels, List.mem_cons, List.not_mem_nil, or_false, not_or] at hs
  obtain ⟨h1, h2, h3, h4, h5, h6, h7⟩ := hs
  have e1 : (s == "Angry") = false := beq_eq_false_iff_ne.mpr h1
  have e2 : (s == "Disgust") = false := beq_eq_false_iff_ne.mpr h2
  have e3 : (s == "Fear") = false := beq_eq_false_iff_ne.mpr h3
  have e4 : (s == "Happy") = false := beq_eq_false_iff_ne.mpr h4
  have e5 : (s == "Sad") = false := beq_eq_false_iff_ne.mpr h5
  have e6 : (s == "Surprise") = false := beq_eq_false_iff_ne.mpr h6
  have e7 : (s == "Neutral") = false := beq_eq_false_iff_ne.mpr h7
  simp [get_genre, genre_mapping, List.lookup, e1, e2, e3, e4, e5, e6, e7]

/-- Witness for C2: the theorem evaluated at the concrete out-of-set label
"Bored". -/
theorem get_genre_spec_witness : get_genre "Bored" = "pop" :=
  get_genre_spec.2.2.2.2.2.2.2 "Bored" (by decide)

/-- C10: the emotion-to-genre mapping is injective on the seven emotion labels:
distinct labels receive distinct genre tags. -/
theorem get_genre_injective :
    ∀ a ∈ emotion_labels, ∀ b ∈ emotion_labels, a ≠ b → get_genre a ≠ get_genre b := by
  decide

/-- Witness for C10: the theorem applied at the concrete pair Angry, Happy. -/
theorem get_genre_injective_witness : get_genre "Angry" ≠ get_genre "Happy" :=
  get_genre_injective "Angry" (by decide) "Happy" (by decide) (by decide)

/-- A successful extraction yields exactly one track per result item. -/
theorem extractTracks_length (items : List Item) (ts : List Track)
    (h : extractTracks items = .ok ts) : ts.length = items.length := by
  induction items generalizing ts with
  | nil =>
    simp only [extractTracks] at h
    cases h
    rfl
  | cons item rest ih =>
    simp only [extractTracks] at h
    cases hx : extractTrack item with
    | error e => rw [hx] at h; cases h
    | ok t =>
      rw [hx] at h
      cases hr : extractTracks rest with
      | error e => rw [hr] at h; cases h
      | ok ts2 =>
        rw [hr] at h
        cases h
        simp [ih ts2 hr]

/-- One malformed item anywhere in the list makes the whole extraction fail. -/
theorem extractTracks_error_of_mem (items : List Item) (item : Item) (e : String)
    (hmem : item ∈ items) (he : extractTrack item = .error e) :
    ∃ e2, extractTracks items = .error e2 := by
  induction items with
  | nil => cases hmem
  | cons hd rest ih =>
    cases hmem with
    | head =>
      exact ⟨e, by simp [extractTracks, he]⟩
    | tail _ hm =>
      cases hx : extractTrack hd with
      | error e0 => exact ⟨e0, by simp [extractTracks, hx]⟩
      | ok t =>
        obtain ⟨e2, h2⟩ := ih hm
        exact ⟨e2, by simp [extractTracks, hx, h2]⟩

/-- C3: if the external catalog call fails in any way, the track fetch returns
the empty list; the return type `List Track` records that no exception escapes
(the `except` arm of lines 64-66 of moodify.py catches everything). -/
theorem get_tracks_by_genre_error (genre : String)
    (search : String → Nat → Except String SearchResponse) (e : String)
    (h : search ("genre:" ++ genre) 5 = .error e) :
    get_tracks_by_genre genre search = [] := by
  simp [get_tracks_by_genre, h]

/-- Witness for C3: the theorem applied at genre pop with a search oracle that
always fails. -/
theorem get_tracks_by_genre_error_witness :
    get_tracks_by_genre "pop" (fun _ _ => .error "401 unauthorized") = [] :=
  get_tracks_by_genre_error "pop" (fun _ _ => .error "401 unauthorized")
    "401 unauthorized" rfl

/-- A search oracle whose response carries six well-formed result items, more
than the requested limit of 5. -/
def sixItemSearch : String → Nat → Except String SearchResponse :=
  fun _ _ => .ok ⟨List.replicate 6 ⟨some "t", [some "a"], some "u"⟩⟩

/-- C4 counterexample: the code passes `limit=5` to the external service but
never truncates the response; against a service whose response carries six
result items, `get_tracks_by_genre` returns six tracks, not at most five. -/
theorem get_tracks_six_counterexample :
    (get_tracks_by_genre "pop" sixItemSearch).length = 6 ∧
    ¬ (get_tracks_by_genre "pop" sixItemSearch).length ≤ 5 := by
  constructor
  · rfl
  · decide

/-- C4 amended: `get_tracks_by_genre` yields one track per well-formed response
item and none on any failure, so whenever the external service honors the
requested limit and returns at most 5 items, at most 5 tracks are returned. -/
theorem get_tracks_by_genre_le_five (genre : String)
    (search : String → Nat → Except String SearchResponse)
    (h : ∀ resp, search ("genre:" ++ genre) 5 = .ok resp → resp.items.length ≤ 5) :
    (get_tracks_by_genre genre search).length ≤ 5 := by
  unfold get_tracks_by_genre
  cases hs : search ("genre:" ++ genre) 5 with
  | error e => simp
  | ok resp =>
    cases he : extractTracks resp.items with
    | error e => simp [he]
    | ok ts =>
      simpa [he, extractTracks_length resp.items ts he] using h resp hs

/-- Witness for C4 (amended): the theorem applied at genre pop with a search
oracle returning two well-formed items. -/
theorem get_tracks_by_genre_le_five_witness :
    (get_tracks_by_genre "pop"
      (fun _ _ => .ok ⟨[⟨some "t1", [some "a1"], some "u1"⟩,
                        ⟨some "t2", [some "a2"], some "u2"⟩]⟩)).length ≤ 5 :=
  get_tracks_by_genre_le_five "pop"
    (fun _ _ => .ok ⟨[⟨some "t1", [some "a1"], some "u1"⟩,
                      ⟨some "t2", [some "a2"], some "u2"⟩]⟩)
    (by intro resp h; injection h with h; rw [← h]; decide)

/-- C9: track extraction is all-or-nothing: if any single result item of a
successful response is malformed, the whole fetch returns the empty list,
discarding every track extracted from preceding well-formed items. -/
theorem get_tracks_all_or_nothing (genre : String)
    (search : String → Nat → Except String SearchResponse)
    (resp : SearchResponse) (item : Item) (e : String)
    (hs : search ("genre:" ++ genre) 5 = .ok resp)
    (hmem : item ∈ resp.items) (he : extractTrack item = .error e) :
    get_tracks_by_genre genre search = [] := by
  obtain ⟨e2, h2⟩ := extractTracks_error_of_mem resp.items item e hmem he
  simp [get_tracks_by_genre, hs, h2]

/-- Witness for C9: the theorem applied at a concrete response whose first item
is well-formed and whose second item has an empty credited-artist list. -/
theorem get_tracks_all_or_nothing_witness :
    get_tracks_by_genre "rock"
      (fun _ _ => .ok ⟨[⟨some "good", [some "a"], some "u"⟩,
                        ⟨some "bad", [], some "u"⟩]⟩) = [] :=
  get_tracks_all_or_nothing "rock"
    (fun _ _ => .ok ⟨[⟨some "good", [some "a"], some "u"⟩,
                      ⟨some "bad", [], some "u"⟩]⟩)
    ⟨[⟨some "good", [some "a"], some "u"⟩, ⟨some "bad", [], some "u"⟩]⟩
    ⟨some "bad", [], some "u"⟩ "IndexError: artists" rfl (by decide) rfl

/-- Shared helper: a failed external call makes the track fetch return `[]`. -/
theorem get_tracks_eq_nil_of_error (genre : String)
    (search : String → Nat → Except String SearchResponse) (e : String)
    (h : search ("genre:" ++ genre) 5 = .error e) :
    get_tracks_by_genre genre search = [] := by
  simp [get_tracks_by_genre, h]

/-- Invariant of the `argmaxAux` scan: either no element of the remaining list
beats the current best (and the current best index is returned), or the scan
returns the global index of the first element that is maximal among the
remaining list and strictly beats the current best. -/
theorem argmaxAux_spec (xs : List ℚ) : ∀ (i bi : Nat) (bv : ℚ),
    (argmaxAux xs i bi bv = bi ∧ ∀ m, m < xs.length → xs.getD m 0 ≤ bv) ∨
    (∃ m, m < xs.length ∧ argmaxAux xs i bi bv = i + m ∧ bv < xs.getD m 0 ∧
      (∀ j, j < xs.length → xs.getD j 0 ≤ xs.getD m 0) ∧
      (∀ j, j < m → xs.getD j 0 < xs.getD m 0)) := by
  induction xs with
  | nil =>
    intro i bi bv
    left
    exact ⟨rfl, fun m hm => absurd hm (by simp)⟩
  | cons x xs ih =>
    intro i bi bv
    by_cases hx : bv < x
    · rcases ih (i + 1) i x with ⟨hres, hall⟩ | ⟨m, hmlen, hres, hgt, hub, hpre⟩
      · right
        refine ⟨0, by simp, ?_, by simpa using hx, ?_, ?_⟩
        · show argmaxAux (x :: xs) i bi bv = i + 0
          simp [argmaxAux, hx, hres]
        · intro j hj
          cases j with
          | zero => simp
          | succ j2 =>
            simp only [List.getD_cons_succ, List.getD_cons_zero]
            exact hall j2 (by simpa using hj)
        · intro j hj
          omega
      · right
        refine ⟨m + 1, by simpa using hmlen, ?_, by simpa using lt_trans hx hgt, ?_, ?_⟩
        · show argmaxAux (x :: xs) i bi bv = i + (m + 1)
          simp only [argmaxAux, if_pos hx]
          omega
        · intro j hj
          cases j with
          | zero => simpa using le_of_lt hgt
          | succ j2 =>
            simp only [List.getD_cons_succ]
            exact hub j2 (by simpa using hj)
        · intro j hj
          cases j with
          | zero => simpa using hgt
          | succ j2 =>
            simp only [List.getD_cons_succ]
            exact hpre j2 (by omega)
    · rcases ih (i + 1) bi bv with ⟨hres, hall⟩ | ⟨m, hmlen, hres, hgt, hub, hpre⟩
      · left
        refine ⟨?_, ?_⟩
        · show argmaxAux (x :: xs) i bi bv = bi
          simp [argmaxAux, hx, hres]
        · intro m hm
          cases m with
          | zero => simpa using le_of_not_lt hx
          | succ m2 =>
            simp only [List.getD_cons_succ]
            exact hall m2 (by simpa using hm)
      · right
        refine ⟨m + 1, by simpa using hmlen, ?_, by simpa using hgt, ?_, ?_⟩
        · show argmaxAux (x :: xs) i bi bv = i + (m + 1)
          simp only [argmaxAux, if_neg hx]
          omega
        · intro j hj
          cases j with
          | zero =>
            simpa using le_of_lt (lt_of_le_of_lt (le_of_not_lt hx) hgt)
          | succ j2 =>
            simp only [List.getD_cons_succ]
            exact hub j2 (by simpa using hj)
        · intro j hj
          cases j with
          | zero => simpa using lt_of_le_of_lt (le_of_not_lt hx) hgt
          | succ j2 =>
            simp only [List.getD_cons_succ]
            exact hpre j2 (by omega)

/-- `argmax` on a nonempty vector returns an in-range index of a maximal
entry, and every entry strictly before it is strictly smaller: the first
occurrence of the maximum wins, as `np.argmax` documents. -/
theorem argmax_spec (x : ℚ) (xs : List ℚ) :
    argmax (x :: xs) < (x :: xs).length ∧
    (∀ m, m < (x :: xs).length →
      (x :: xs).getD m 0 ≤ (x :: xs).getD (argmax (x :: xs)) 0) ∧
    (∀ j, j < argmax (x :: xs) →
      (x :: xs).getD j 0 < (x :: xs).getD (argmax (x :: xs)) 0) := by
  rcases argmaxAux_spec xs 1 0 x with ⟨hres, hall⟩ | ⟨m, hmlen, hres, hgt, hub, hpre⟩
  · have hk : argmax (x :: xs) = 0 := by simp [argmax, hres]
    rw [hk]
    refine ⟨by simp, ?_, ?_⟩
    · intro m hm
      cases m with
      | zero => simp
      | succ m2 =>
        simp only [List.getD_cons_succ, List.getD_cons_zero]
        exact hall m2 (by simpa using hm)
    · intro j hj
      omega
  · have hk : argmax (x :: xs) = m + 1 := by
      simp only [argmax]
      omega
    rw [hk]
    refine ⟨by simpa using hmlen, ?_, ?_⟩
    · intro m2 hm2
      cases m2 with
      | zero =>
        simpa using le_of_lt hgt
      | succ m3 =>
        simp only [List.getD_cons_succ]
        exact hub m3 (by simpa using hm2)
    · intro j hj
      cases j with
      | zero => simpa using hgt
      | succ j2 =>
        simp only [List.getD_cons_succ]
        exact hpre j2 (by omega)

/-- A selected label always comes from `emotion_labels`. -/
theorem selectLabel_ok_mem (p : List ℚ) (e : String)
    (h : selectLabel p = .ok e) : e ∈ emotion_labels := by
  cases p with
  | nil => simp [selectLabel] at h
  | cons q qs =>
    simp only [selectLabel] at h
    cases hg : emotion_labels.get? (argmax (q :: qs)) with
    | none => rw [hg] at h; cases h
    | some e0 =>
      rw [hg] at h
      injection h with h2
      rw [← h2]
      exact List.get?_mem hg

/-- C1: with zero detected faces, the detection step returns Neutral with zero
calls into the Emotion Classifier, and the full pipeline run maps it to genre
chill. -/
theorem evaluate_no_faces {Face : Type} (predict : Face → List ℚ)
    (search : String → Nat → Except String SearchResponse) :
    detectRun ([] : List Face) predict = (.ok "Neutral", 0) ∧
    evaluate ([] : List Face) predict search =
      .ok ⟨"Neutral", "chill", get_tracks_by_genre "chill" search⟩ :=
  ⟨rfl, rfl⟩

/-- C5: when two labels share the exactly equal maximal probability, the
selection step `emotion_labels[np.argmax(prediction)]` picks the lowest index:
the selected index is at most any maximal index, attains the same probability,
and the selected label is the one at that index in the fixed ordering. -/
theorem select_lowest_index_on_tie (p : List ℚ) (hlen : p.length = 7)
    (i j : Nat) (hij : i < j) (hj : j < p.length)
    (hmax : ∀ m, m < p.length → p.getD m 0 ≤ p.getD i 0)
    (htie : p.getD i 0 = p.getD j 0) :
    argmax p ≤ i ∧ p.getD (argmax p) 0 = p.getD i 0 ∧
    selectLabel p = .ok (emotion_labels.getD (argmax p) "Neutral") := by
  cases p with
  | nil => simp at hlen
  | cons x xs =>
    obtain ⟨hklen, hub, hstrict⟩ := argmax_spec x xs
    have hi : i < (x :: xs).length := lt_trans hij hj
    have hle : argmax (x :: xs) ≤ i := by
      by_contra hlt
      exact absurd (hmax _ hklen) (not_le_of_lt (hstrict i (by omega)))
    have hval : (x :: xs).getD (argmax (x :: xs)) 0 = (x :: xs).getD i 0 :=
      le_antisymm (hmax _ hklen) (hub i hi)
    refine ⟨hle, hval, ?_⟩
    have hk7 : argmax (x :: xs) < emotion_labels.length := by
      have : (x :: xs).length = 7 := hlen
      simp only [emotion_labels, List.length_cons]
      omega
    have hg : emotion_labels[argmax (x :: xs)]? =
        some (emotion_labels.getD (argmax (x :: xs)) "Neutral") := by
      rw [List.getElem?_eq_getElem hk7, List.getD_eq_getElem?_getD,
        List.getElem?_eq_getElem hk7]
      rfl
    unfold selectLabel
    rw [List.get?_eq_getElem?, hg]

/-- Witness for C5: the theorem applied to the concrete tied vector
[1, 0, 0, 1, 0, 0, 0] with maximal indices 0 and 3; index 0 (Angry) wins. -/
theorem select_lowest_index_on_tie_witness :
    argmax [(1 : ℚ), 0, 0, 1, 0, 0, 0] ≤ 0 ∧
    ([(1 : ℚ), 0, 0, 1, 0, 0, 0]).getD (argmax [(1 : ℚ), 0, 0, 1, 0, 0, 0]) 0 =
      ([(1 : ℚ), 0, 0, 1, 0, 0, 0]).getD 0 0 ∧
    selectLabel [(1 : ℚ), 0, 0, 1, 0, 0, 0] =
      .ok (emotion_labels.getD (argmax [(1 : ℚ), 0, 0, 1, 0, 0, 0]) "Neutral") :=
  select_lowest_index_on_tie [(1 : ℚ), 0, 0, 1, 0, 0, 0] (by decide) 0 3
    (by decide) (by decide) (by decide) (by decide)

/-- C6: with one or more detected face regions, exactly the first region is
classified and the result is independent of every other detected region. -/
theorem detect_first_face_only {Face : Type} (f : Face) (rest rest2 : List Face)
    (predict : Face → List ℚ) :
    detect_emotion_from_image (f :: rest) predict = selectLabel (predict f) ∧
    detect_emotion_from_image (f :: rest) predict =
      detect_emotion_from_image (f :: rest2) predict :=
  ⟨rfl, rfl⟩

/-- C7: whenever the classifier honors its contract of returning a 7-element
probability vector, the pipeline run returns a RecommendationResult and raises
nothing; and in the fully degraded case (no face, failed catalog call) the
result is Neutral, chill, and an empty track list. -/
theorem evaluate_total {Face : Type} (faces : List Face)
    (predict : Face → List ℚ)
    (search : String → Nat → Except String SearchResponse)
    (hpred : ∀ f, (predict f).length = 7) :
    (∃ r, evaluate faces predict search = .ok r) ∧
    (∀ e, faces = [] → search "genre:chill" 5 = .error e →
      evaluate faces predict search = .ok ⟨"Neutral", "chill", []⟩) := by
  constructor
  · cases faces with
    | nil =>
      exact ⟨⟨"Neutral", "chill", get_tracks_by_genre "chill" search⟩, rfl⟩
    | cons f rest =>
      obtain ⟨q, qs, hp⟩ : ∃ q qs, predict f = q :: qs := by
        cases hpf : predict f with
        | nil =>
          have h7 := hpred f
          rw [hpf] at h7
          simp at h7
        | cons q qs => exact ⟨q, qs, rfl⟩
      have hlen : (q :: qs).length = 7 := by rw [← hp]; exact hpred f
      have hk7 : argmax (q :: qs) < emotion_labels.length := by
        have hb := (argmax_spec q qs).1
        rw [hlen] at hb
        simpa [emotion_labels] using hb
      obtain ⟨a, ha⟩ : ∃ a, emotion_labels[argmax (q :: qs)]? = some a :=
        ⟨_, List.getElem?_eq_getElem hk7⟩
      refine ⟨⟨a, get_genre a, get_tracks_by_genre (get_genre a) search⟩, ?_⟩
      simp [evaluate, detect_emotion_from_image, detectRun, selectLabel, hp, ha]
  · intro e hfaces hsearch
    subst hfaces
    have ht : get_tracks_by_genre "chill" search = [] :=
      get_tracks_eq_nil_of_error "chill" search e hsearch
    have hg : get_genre "Neutral" = "chill" := rfl
    simp [evaluate, detect_emotion_from_image, detectRun, hg, ht]

/-- Witness for C7: the theorem applied with no detected face and an
always-failing catalog client. -/
theorem evaluate_total_witness :
    evaluate ([] : List Unit) (fun _ => [(1 : ℚ), 0, 0, 0, 0, 0, 0])
      (fun _ _ => .error "network down") = .ok ⟨"Neutral", "chill", []⟩ :=
  (evaluate_total ([] : List Unit) (fun _ => [(1 : ℚ), 0, 0, 0, 0, 0, 0])
      (fun _ _ => .error "network down") (fun _ => rfl)).2
    "network down" rfl rfl

/-- C8: every emotion the detection step returns is one of the seven labels;
an image with no detected face yields Neutral, and a classified face yields an
entry of `emotion_labels`. -/
theorem detect_emotion_in_labels {Face : Type} (faces : List Face)
    (predict : Face → List ℚ) (e : String)
    (h : detect_emotion_from_image faces predict = .ok e) :
    e ∈ emotion_labels := by
  cases faces with
  | nil =>
    have h2 : Except.ok (ε := String) "Neutral" = Except.ok e := h
    injection h2 with h3
    rw [← h3]
    decide
  | cons f rest =>
    exact selectLabel_ok_mem (predict f) e h

/-- Witness for C8: the theorem applied to an image with zero detected faces. -/
theorem detect_emotion_in_labels_witness : "Neutral" ∈ emotion_labels :=
  detect_emotion_in_labels ([] : List Unit) (fun _ => []) "Neutral" rfl

end Moodify
